import Mathlib

/-!
Verification of `functions.py` (Rural Access Index pre-processing).

Shallow embedding notes:
* Geometry objects (shapely) are abstract: every operation used by the code —
  zero-distance buffer repair, pairwise intersection, pairwise difference,
  emptiness test and bounding box — is a field of `GeomOps`.  Definitions are
  parametric in the geometry type `G`; a concrete executable instance
  (`listOps`, finite point sets on the integer grid) is supplied for witnesses.
* A GeoDataFrame is modelled by `GDF`: a full pandas column-name list
  (including the `geometry` name), a list of rows (attribute payload plus a
  geometry of type `G`) and a CRS string.  Schema bookkeeping (the merge
  suffix rules of `pandas.merge`) is modelled on the column-name lists.
* The source file is Python-2 era; `reduce` at line 73 of the source is the
  builtin left fold, `reduce(f, [g] ++ cands) = List.foldl f g cands`.
* Mutation of data frames (`df.copy()`, in-place column assignment) is
  modelled separately by a store-passing variant `spatial_overlays_st` in
  which frames live at indices of a list-shaped store.
-/

namespace RAI

/-- Bounding box of a geometry, as returned by shapely `bounds`. -/
structure Box where
  minx : Int
  miny : Int
  maxx : Int
  maxy : Int
deriving DecidableEq, Repr

/-- Overlap test between two bounding boxes: the rectangle range query
performed by the rtree spatial index (`sindex.intersection`). -/
def boxIntersects (a b : Box) : Bool :=
  decide (a.minx ≤ b.maxx) && decide (b.minx ≤ a.maxx) &&
  decide (a.miny ≤ b.maxy) && decide (b.miny ≤ a.maxy)

/-- The geometry operations the source code uses, kept abstract. -/
structure GeomOps (G : Type) where
  /-- `geom.buffer(0)` : zero-distance-buffer repair. -/
  buffer0 : G → G
  /-- `a.intersection(b)` -/
  inter : G → G → G
  /-- `a.difference(b)` -/
  diff : G → G → G
  /-- `geom.is_empty` -/
  isEmpty : G → Bool
  /-- `geom.bounds` -/
  bounds : G → Box

/-- One row of a GeoDataFrame: attribute values plus a geometry. -/
structure GRow (G : Type) where
  attrs : List String
  geom : G
deriving DecidableEq, Repr

/-- A GeoDataFrame: full pandas column list (the name `geometry` included),
rows, and a CRS tag. -/
structure GDF (G : Type) where
  cols : List String
  rows : List (GRow G)
  crs : String
deriving DecidableEq, Repr

variable {G : Type} {P : Type}

/-- Lines 33-34 of the source (for either input):
`df['geometry'] = df.geometry.buffer(0)` — repair every geometry. -/
def repairGDF (ops : GeomOps G) (df : GDF G) : GDF G :=
  { df with rows := df.rows.map (fun r => { r with geom := ops.buffer0 r.geom }) }

/-- The candidate geometries of `df2` for a bounding box `b`:
`df2.iloc[list(spatial_index.intersection(b))].geometry` — the geometries of
`df2` whose bounding box overlaps `b` (in row order). -/
def candGeoms (ops : GeomOps G) (df2 : GDF G) (b : Box) : List G :=
  (df2.rows.filter (fun r => boxIntersects (ops.bounds r.geom) b)).map (fun r => r.geom)

/-- Line 73 of the source, for one row `r` of (already repaired) `df1`:
`reduce(lambda x, y: x.difference(y).buffer(0), [x.geometry] + list(df2.iloc[x.histreg].geometry))`.
Python's `reduce` over `[g] ++ cands` is the left fold over `cands` started
at `g`. -/
def diffRow (ops : GeomOps G) (df2 : GDF G) (r : GRow G) : GRow G :=
  { r with
    geom := (candGeoms ops df2 (ops.bounds r.geom)).foldl
      (fun g y => ops.buffer0 (ops.diff g y)) r.geom }

/-- Lines 64 and 75 of the source: keep only rows whose geometry is not empty
(`frame.loc[frame.geometry.is_empty == False]`). -/
def filterNonEmptyRows (ops : GeomOps G) (rows : List (GRow G)) : List (GRow G) :=
  rows.filter (fun r => ops.isEmpty r.geom == false)

/-- A candidate pair produced by lines 42-48 of the source: row `idx1` of
`df1` paired with row `idx2` of `df2` whenever their bounding boxes overlap. -/
structure CPair (G : Type) where
  idx1 : Nat
  row1 : GRow G
  idx2 : Nat
  row2 : GRow G
deriving DecidableEq, Repr

/-- Lines 42-48 of the source: for every row of `df1` (in order), the list of
`df2` rows whose bounding box overlaps its bounding box, flattened into the
`nei` pair list. -/
def interPairs (ops : GeomOps G) (df1 df2 : GDF G) : List (CPair G) :=
  (df1.rows.enum.map (fun ir =>
    (df2.rows.enum.filter
        (fun jr => boxIntersects (ops.bounds jr.2.geom) (ops.bounds ir.2.geom))).map
      (fun jr => CPair.mk ir.1 ir.2 jr.1 jr.2))).flatten

/-- The column-name effect of `left.merge(right, ..., suffixes=[s1, s2])`:
every column name present in both frames is suffixed (`s1` on the left copy,
`s2` on the right copy); all other names are kept. -/
def mergeSuffix (left right : List String) (s1 s2 : String) : List String :=
  left.map (fun c => if c ∈ right then c ++ s1 else c) ++
  right.map (fun c => if c ∈ left then c ++ s2 else c)

/-- Columns of the `pairs` frame after lines 50-52 of the source: the pair
frame `['idx1','idx2']` is merged with `df1` (which has gained the `bbox` and
`histreg` bookkeeping columns; default pandas suffixes `_x`/`_y`), then with
`df2` under suffixes `_1`/`_2`. `cols1`/`cols2` are the original full column
lists of the two inputs, each containing `geometry`. -/
def pairsCols (cols1 cols2 : List String) : List String :=
  mergeSuffix (mergeSuffix ["idx1", "idx2"] (cols1 ++ ["bbox", "histreg"]) "_x" "_y")
    cols2 "_1" "_2"

/-- Columns of the returned intersection frame, lines 53-62 of the source:
take the `pairs` columns plus the computed `Intersection` column, run the five
`cols.remove(...)` deletions (`geometry_1`, `geometry_2`, `histreg`, `bbox`,
`Intersection`; Python `list.remove` deletes the first occurrence), then
re-append the `Intersection` column renamed to `geometry`. -/
def dfinterCols (cols1 cols2 : List String) : List String :=
  ((((((pairsCols cols1 cols2) ++ ["Intersection"]).erase "geometry_1").erase
      "geometry_2").erase "histreg").erase "bbox").erase "Intersection" ++ ["geometry"]

/-- Lines 50-65 of the source applied to the (already repaired) inputs: build
the candidate pairs, carry the attributes of both rows (plus the `idx1`,
`idx2` values from the pair frame), compute
`geometry_1.intersection(geometry_2).buffer(0)` per pair, and drop rows with
an empty geometry. -/
def interResult (ops : GeomOps G) (df1 df2 : GDF G) : GDF G :=
  { cols := dfinterCols df1.cols df2.cols
    rows := filterNonEmptyRows ops ((interPairs ops df1 df2).map (fun p =>
      { attrs := [toString p.idx1, toString p.idx2] ++ p.row1.attrs ++ p.row2.attrs
        geom := ops.buffer0 (ops.inter p.row1.geom p.row2.geom) }))
    crs := df1.crs }

/-- Lines 15-77 of the source: `spatial_overlays(df1, df2, how='intersection')`.
Both inputs are repaired first (lines 31-34); the `intersection` branch
returns the pair-intersection frame, the `difference` branch replaces each
`df1` geometry by the fold of pairwise differences over its bounding-box
candidates and drops empty results (the `bbox`/`histreg`/`new_g` bookkeeping
columns are added and dropped within the branch, a net no-op on the schema).
Any other `how` value falls through both branches and the function implicitly
returns Python `None`, modelled as `none`. -/
def spatial_overlays (ops : GeomOps G) (df1 df2 : GDF G)
    (how : String := "intersection") : Option (GDF G) :=
  let df1r := repairGDF ops df1
  let df2r := repairGDF ops df2
  if how == "intersection" then
    some (interResult ops df1r df2r)
  else if how == "difference" then
    some { cols := df1r.cols
           rows := filterNonEmptyRows ops (df1r.rows.map (diffRow ops df2r))
           crs := df1r.crs }
  else
    none

/-!  Row-wise conditional geometry transforms (lines 369-395 of the source). -/

/-- A row as consumed by the two conditional transforms: a geometry plus the
two boolean flag columns used by them. -/
structure CRow (G : Type) where
  geometry : G
  within_country : Bool
  inter_urb : Bool
deriving DecidableEq, Repr

/-- Lines 369-381 of the source: `geom_within_country(x, geo_country)` —
if `not x['within_country']`, return `x['geometry'].intersection(geo_country)`,
else return `x['geometry']`. -/
def geom_within_country (ops : GeomOps G) (x : CRow G) (geo_country : G) : G :=
  if x.within_country = false then ops.inter x.geometry geo_country
  else x.geometry

/-- Lines 384-395 of the source: `delete_roads_urb(x, geo_urban)` —
if `x['inter_urb']`, return `x['geometry'].difference(geo_urban)`, else return
`x['geometry']`. -/
def delete_roads_urb (ops : GeomOps G) (x : CRow G) (geo_urban : G) : G :=
  if x.inter_urb = true then ops.diff x.geometry geo_urban
  else x.geometry

/-!  A concrete executable geometry instance for witnesses: a geometry is a
finite set of points of the integer grid, kept as a list. -/

/-- Bounding box of a finite point set; `(0,0,0,0)` for the empty set. -/
def boundsOf (g : List (Int × Int)) : Box :=
  match g with
  | [] => ⟨0, 0, 0, 0⟩
  | p :: ps =>
    ⟨ps.foldl (fun m q => min m q.1) p.1,
     ps.foldl (fun m q => min m q.2) p.2,
     ps.foldl (fun m q => max m q.1) p.1,
     ps.foldl (fun m q => max m q.2) p.2⟩

/-- Concrete geometry operations on finite integer point sets, used only to
instantiate witnesses and counterexamples. -/
def listOps : GeomOps (List (Int × Int)) where
  buffer0 := fun g => g.dedup
  inter := fun a b => a.filter (fun p => b.contains p)
  diff := fun a b => a.filter (fun p => !(b.contains p))
  isEmpty := fun g => g.isEmpty
  bounds := boundsOf

/-!  Store-passing model of the mutation discipline of `spatial_overlays`
(claim C5).  Data frames live at indices of a list-shaped store; `df.copy()`
allocates a fresh frame at the end of the store, in-place column assignment
(`df['geometry'] = ...`, `df.geometry = df.new_g`) is `List.set` at the
frame's index.  The bookkeeping columns added and dropped inside the branches
carry no information that survives the call and are elided from the frames
(they are accounted for in the schema functions above). -/

/-- A store of allocated data frames. -/
abbrev Store (G : Type) : Type := List (GDF G)

/-- The default frame used to totalise store reads. -/
def emptyGDF : GDF G := { cols := [], rows := [], crs := "" }

/-- Lines 31-34 of the source as store operations: copy both inputs
(`df1.copy()`, `df2.copy()` allocate fresh frames) and repair each copy's
geometry column in place.  Returns the new store and the two copies'
addresses. -/
def overlayCopies (ops : GeomOps G) (s : Store G) (i1 i2 : Nat) :
    Store G × Nat × Nat :=
  let a1 := List.length s
  let s1 := s ++ [List.getD s i1 emptyGDF]
  let a2 := List.length s1
  let s2 := s1 ++ [List.getD s1 i2 emptyGDF]
  let s3 := List.set s2 a1 (repairGDF ops (List.getD s2 a1 emptyGDF))
  let s4 := List.set s3 a2 (repairGDF ops (List.getD s3 a2 emptyGDF))
  (s4, a1, a2)

/-- `spatial_overlays` as a store program, mutation steps written out:
the unconditional copy-and-repair prologue, then the mode branch.  The
difference branch replaces the first copy's geometries in place (lines 73-74)
and then allocates the filtered frame (`df1 = df1.loc[...].copy()`, line 75);
the intersection branch only builds fresh frames from the copies.  The
returned frame is the function result (`None` for an unrecognized mode). -/
def spatial_overlays_st (ops : GeomOps G) (s : Store G) (i1 i2 : Nat)
    (how : String) : Store G × Option (GDF G) :=
  let p := overlayCopies ops s i1 i2
  let s4 := p.1
  let a1 := p.2.1
  let a2 := p.2.2
  if how == "intersection" then
    (s4, some (interResult ops (List.getD s4 a1 emptyGDF) (List.getD s4 a2 emptyGDF)))
  else if how == "difference" then
    let d2 := List.getD s4 a2 emptyGDF
    let s5 := List.set s4 a1
      (let d1 := List.getD s4 a1 emptyGDF
       { d1 with rows := d1.rows.map (diffRow ops d2) })
    let a3 := List.length s5
    let s6 := s5 ++ [ (let d1 := List.getD s5 a1 emptyGDF
                       { d1 with rows := filterNonEmptyRows ops d1.rows }) ]
    (s6, some (List.getD s6 a3 emptyGDF))
  else
    (s4, none)

/-!  Road reclassification (lines 229-308 of the source). -/

/-- The static `dict_map` table of `map_roads`, entries in source order. -/
def dict_map_table : List (String × String) :=
  [("disused", "other"),
   ("dummy", "other"),
   ("planned", "other"),
   ("platform", "other"),
   ("unsurfaced", "track"),
   ("traffic_island", "other"),
   ("razed", "other"),
   ("abandoned", "other"),
   ("services", "track"),
   ("proposed", "other"),
   ("corridor", "track"),
   ("bus_guideway", "other"),
   ("bus_stop", "other"),
   ("rest_area", "other"),
   ("yes", "other"),
   ("trail", "other"),
   ("escape", "track"),
   ("raceway", "other"),
   ("emergency_access_point", "track"),
   ("emergency_bay", "track"),
   ("construction", "track"),
   ("bridleway", "track"),
   ("cycleway", "other"),
   ("footway", "other"),
   ("living_street", "tertiary"),
   ("path", "track"),
   ("pedestrian", "other"),
   ("primary", "primary"),
   ("primary_link", "primary"),
   ("residential", "tertiary"),
   ("road", "secondary"),
   ("secondary", "secondary"),
   ("secondary_link", "secondary"),
   ("service", "tertiary"),
   ("steps", "other"),
   ("tertiary", "tertiary"),
   ("tertiary_link", "tertiary"),
   ("track", "track"),
   ("unclassified", "tertiary"),
   ("trunk", "primary"),
   ("motorway", "primary"),
   ("trunk_link", "primary"),
   ("motorway_link", "primary"),
   ("via_ferrata", "other"),
   ("elevator", "other"),
   ("crossing", "other"),
   ("seasonal", "other"),
   ("traffic_signals", "other"),
   ("piste", "other"),
   ("dismantled", "other"),
   ("winter_road", "other"),
   ("access", "other"),
   ("ohm:military:Trench", "other"),
   ("no", "other"),
   ("byway", "other"),
   ("unmarked_route", "other"),
   ("track_grade1", "track"),
   ("track_grade2", "track"),
   ("track_grade3", "track"),
   ("track_grade4", "track"),
   ("track_grade5", "track"),
   ("unknown", "other")]

/-- Python `dict_map[x]`: lookup of a tag in the static table (the keys of
the dict literal are pairwise distinct, so first-match lookup is the dict). -/
def dict_map (x : String) : Option String :=
  dict_map_table.lookup x

/-- The five coarse road classes of the specification. -/
def roadClasses : List String :=
  ["primary", "secondary", "tertiary", "track", "other"]

/-- Line 306 of the source:
`load_country['fclass'].map(lambda x: dict_map[x])` — compute the `roads`
value for each tag, left to right; a tag absent from the table raises
`KeyError` (modelled as `Except.error` carrying the missing tag), which
propagates to the caller. -/
def map_roads : List String → Except String (List String)
  | [] => Except.ok []
  | x :: xs =>
    match dict_map x with
    | some v => (map_roads xs).map (fun vs => v :: vs)
    | none => Except.error x

/-!  `get_country` in-memory pipeline (lines 140-148 of the source).  File
system access, the OSM extraction subprocesses and the retry loop around
`gpd.read_file` are external collaborators; the model starts from the loaded
rows.  The geodesic length (`line_length`, floating point, delegated to
`geopy.distance.vincenty`) is an external collaborator `len` returning
kilometers, modelled as a rational-valued function. -/

/-- A loaded road record: its raw `highway` tag and its geometry. -/
structure HRow (G : Type) where
  highway : String
  geom : G
deriving DecidableEq, Repr

/-- The four tags appended unconditionally to the retained-tag list at
line 142 of the source. -/
def fourAlways : List String :=
  ["primary", "secondary", "trunk", "motorway"]

/-- Lines 140-143 of the source:
`uniq = load_country['highway'].value_counts(); uniq = list(uniq[uniq > 20].index);
uniq.extend(['primary','secondary','trunk','motorway']); uniq = list(set(uniq))` —
the set of tags retained by the frequency filter. -/
def uniqTags (rows : List (HRow G)) : List String :=
  let vals := rows.map (fun r => r.highway)
  ((vals.dedup.filter (fun t => decide (vals.count t > 20))) ++ fourAlways).dedup

/-- Line 144 of the source:
`load_country = load_country[load_country['highway'].isin(uniq)]`. -/
def tag_filter (rows : List (HRow G)) : List (HRow G) :=
  rows.filter (fun r => (uniqTags rows).contains r.highway)

/-- Lines 140-148 of the source: the frequency filter, then (when `RAI` is
false) the computed-length column and the `distance < 500` filter.  The
output pairs each retained record with its `distance` value (absent when the
length computation is skipped). -/
def get_country_core (len : G → ℚ) (rows : List (HRow G)) (RAI : Bool) :
    List (HRow G × Option ℚ) :=
  let rows1 := tag_filter rows
  if RAI == false then
    ((rows1.map (fun r => (r, len r.geom))).filter
        (fun rd => decide (rd.2 < 500))).map (fun rd => (rd.1, some rd.2))
  else
    rows1.map (fun r => (r, none))

/-!  Geometry explosion (lines 311-332 of the source). -/

/-- A possibly multi-part geometry over single parts of type `P`. -/
inductive Geo (P : Type) where
  | single : P → Geo P
  | multi : List P → Geo P
deriving DecidableEq, Repr

/-- Whether a geometry is single-part. -/
def isSinglePart : Geo P → Bool
  | .single _ => true
  | .multi _ => false

/-- The constituent single-part geometries, in order: a single-part geometry
is its own (only) part; a multi-part geometry yields one single geometry per
member (what `GeoSeries.explode` iterates over). -/
def explodeParts : Geo P → List (Geo P)
  | .single p => [.single p]
  | .multi ps => ps.map Geo.single

/-- Input frame of `explode`: rows of attribute payload and geometry, plus a
CRS tag.  The original index is the row position (pandas `RangeIndex`). -/
structure XFrame (P : Type) where
  rows : List (List String × Geo P)
  crs : String
deriving DecidableEq, Repr

/-- Lines 311-332 of the source: `explode(gdf)` — one output record per
constituent part, indexed by the two-level identifier `(level_0, level_1)` =
(parent row position, zero-based part position); the parent's non-geometry
attributes are duplicated onto every part (the merge on `level_0`), and the
CRS is copied over. -/
def explode (gdf : XFrame P) : List ((Nat × Nat) × List String × Geo P) × String :=
  ((gdf.rows.enum.map (fun ir =>
      (explodeParts ir.2.2).enum.map (fun jp => ((ir.1, jp.1), ir.2.1, jp.2)))).flatten,
   gdf.crs)

/-!  Spec-side definitions (each written from the specification's words, to
be compared with the code-side definitions above). -/

/-- Spec-side, §4.1 difference mode step 3: "the geometry of A minus the union
of all candidate B-geometries overlapping it, applied as a left-to-right fold
of pairwise differences starting from A's own geometry, re-repairing
(buffer-by-zero) after every pairwise subtraction". -/
def diffSpecGeom (ops : GeomOps G) (g0 : G) (cands : List G) : G :=
  cands.foldl (fun g y => ops.buffer0 (ops.diff g y)) g0

/-- The bookkeeping column names introduced by the intersection branch of the
source; the schema statements assume the inputs do not use them. -/
def bookkeepingNames : List String :=
  ["idx1", "idx2", "bbox", "histreg", "Intersection", "geometry_1", "geometry_2"]

/-!  String helper lemmas for schema reasoning. -/

lemma string_append_cancel {a b : String} (s : String) (h : a ++ s = b ++ s) : a = b := by
  apply String.ext
  have h2 := congrArg String.data h
  rw [String.data_append, String.data_append] at h2
  exact List.append_cancel_right h2

lemma append_ne_of_getLast {c : String} (s t : String) (hs : s.data ≠ [])
    (h : s.data.getLast? ≠ t.data.getLast?) : c ++ s ≠ t := by
  intro he
  apply h
  have h2 := congrArg String.data he
  rw [String.data_append] at h2
  rw [← h2, List.getLast?_append_of_ne_nil _ hs]

/-!  Membership lemmas for the pandas merge-suffix schema rule. -/

lemma mergeSuffix_no_collision {left right : List String} (s1 s2 : String)
    (h : ∀ c ∈ left, c ∉ right) :
    mergeSuffix left right s1 s2 = left ++ right := by
  unfold mergeSuffix
  congr 1
  · rw [show left.map (fun c => if c ∈ right then c ++ s1 else c) = left.map id from
      List.map_eq_map_iff.mpr (fun c hc => by simp [h c hc]), List.map_id]
  · rw [show right.map (fun c => if c ∈ left then c ++ s2 else c) = right.map id from
      List.map_eq_map_iff.mpr (fun c hc => by
        have hl : c ∉ left := fun hl => h c hl hc
        simp [hl]), List.map_id]

lemma mem_mergeSuffix_left_in {left right : List String} {s1 s2 c : String}
    (hc : c ∈ left) (hr : c ∈ right) : (c ++ s1) ∈ mergeSuffix left right s1 s2 :=
  List.mem_append_left _ (List.mem_map.mpr ⟨c, hc, by simp [hr]⟩)

lemma mem_mergeSuffix_left_notin {left right : List String} {s1 s2 c : String}
    (hc : c ∈ left) (hr : c ∉ right) : c ∈ mergeSuffix left right s1 s2 :=
  List.mem_append_left _ (List.mem_map.mpr ⟨c, hc, by simp [hr]⟩)

lemma mem_mergeSuffix_right_in {left right : List String} {s1 s2 c : String}
    (hc : c ∈ right) (hl : c ∈ left) : (c ++ s2) ∈ mergeSuffix left right s1 s2 :=
  List.mem_append_right _ (List.mem_map.mpr ⟨c, hc, by simp [hl]⟩)

lemma mem_mergeSuffix_right_notin {left right : List String} {s1 s2 c : String}
    (hc : c ∈ right) (hl : c ∉ left) : c ∈ mergeSuffix left right s1 s2 :=
  List.mem_append_right _ (List.mem_map.mpr ⟨c, hc, by simp [hl]⟩)

lemma mem_dfinterCols_of {cols1 cols2 : List String} {a : String}
    (ha : a ∈ pairsCols cols1 cols2)
    (h1 : a ≠ "geometry_1") (h2 : a ≠ "geometry_2") (h3 : a ≠ "histreg")
    (h4 : a ≠ "bbox") (h5 : a ≠ "Intersection") : a ∈ dfinterCols cols1 cols2 := by
  unfold dfinterCols
  exact List.mem_append_left _ ((List.mem_erase_of_ne h5).mpr
    ((List.mem_erase_of_ne h4).mpr ((List.mem_erase_of_ne h3).mpr
      ((List.mem_erase_of_ne h2).mpr ((List.mem_erase_of_ne h1).mpr
        (List.mem_append_left _ ha))))))

/-- Pure schema facts about the intersection output columns: the join always
builds `geometry_1`/`geometry_2`; every shared attribute of the two inputs
survives with suffix `_1` (A-origin) or `_2` (B-origin); every unshared
attribute survives unsuffixed. -/
lemma dfinterCols_membership (cols1 cols2 : List String)
    (hg1 : "geometry" ∈ cols1) (hg2 : "geometry" ∈ cols2)
    (hf : ∀ x ∈ bookkeepingNames, x ∉ cols1 ∧ x ∉ cols2) :
    ("geometry_1" ∈ pairsCols cols1 cols2 ∧ "geometry_2" ∈ pairsCols cols1 cols2)
    ∧ (∀ c ∈ cols1, c ≠ "geometry" →
        (c ∈ cols2 → (c ++ "_1") ∈ dfinterCols cols1 cols2)
        ∧ (c ∉ cols2 → c ∈ dfinterCols cols1 cols2))
    ∧ (∀ c ∈ cols2, c ≠ "geometry" →
        (c ∈ cols1 → (c ++ "_2") ∈ dfinterCols cols1 cols2)
        ∧ (c ∉ cols1 → c ∈ dfinterCols cols1 cols2)) := by
  have hb : ∀ x ∈ bookkeepingNames, x ∉ cols1 := fun x hx => (hf x hx).1
  have hb2 : ∀ x ∈ bookkeepingNames, x ∉ cols2 := fun x hx => (hf x hx).2
  have hL : mergeSuffix ["idx1", "idx2"] (cols1 ++ ["bbox", "histreg"]) "_x" "_y"
      = ["idx1", "idx2"] ++ (cols1 ++ ["bbox", "histreg"]) := by
    apply mergeSuffix_no_collision
    intro c hc
    simp only [List.mem_cons, List.not_mem_nil, or_false] at hc
    rcases hc with rfl | rfl
    · simp only [List.mem_append, List.mem_cons, List.not_mem_nil, or_false]
      push_neg
      exact ⟨hb "idx1" (by decide), by decide, by decide⟩
    · simp only [List.mem_append, List.mem_cons, List.not_mem_nil, or_false]
      push_neg
      exact ⟨hb "idx2" (by decide), by decide, by decide⟩
  have hpc : pairsCols cols1 cols2
      = mergeSuffix (["idx1", "idx2"] ++ (cols1 ++ ["bbox", "histreg"])) cols2 "_1" "_2" := by
    rw [pairsCols, hL]
  have hmemL : ∀ c ∈ cols1, c ∈ ["idx1", "idx2"] ++ (cols1 ++ ["bbox", "histreg"]) := by
    intro c hc
    exact List.mem_append_right _ (List.mem_append_left _ hc)
  refine ⟨⟨?_, ?_⟩, ?_, ?_⟩
  · rw [hpc]
    exact mem_mergeSuffix_left_in (hmemL _ hg1) hg2
  · rw [hpc]
    exact mem_mergeSuffix_right_in hg2 (hmemL _ hg1)
  · intro c hc1 hcg
    constructor
    · intro hc2
      apply mem_dfinterCols_of
      · rw [hpc]; exact mem_mergeSuffix_left_in (hmemL _ hc1) hc2
      · intro he
        exact hcg (string_append_cancel (a := c) (b := "geometry") "_1" he)
      · exact append_ne_of_getLast "_1" "geometry_2" (by decide) (by decide)
      · exact append_ne_of_getLast "_1" "histreg" (by decide) (by decide)
      · exact append_ne_of_getLast "_1" "bbox" (by decide) (by decide)
      · exact append_ne_of_getLast "_1" "Intersection" (by decide) (by decide)
    · intro hc2
      apply mem_dfinterCols_of
      · rw [hpc]; exact mem_mergeSuffix_left_notin (hmemL _ hc1) hc2
      · exact fun he => hb "geometry_1" (by decide) (he ▸ hc1)
      · exact fun he => hb "geometry_2" (by decide) (he ▸ hc1)
      · exact fun he => hb "histreg" (by decide) (he ▸ hc1)
      · exact fun he => hb "bbox" (by decide) (he ▸ hc1)
      · exact fun he => hb "Intersection" (by decide) (he ▸ hc1)
  · intro c hc2 hcg
    constructor
    · intro hc1
      apply mem_dfinterCols_of
      · rw [hpc]; exact mem_mergeSuffix_right_in hc2 (hmemL _ hc1)
      · exact append_ne_of_getLast "_2" "geometry_1" (by decide) (by decide)
      · intro he
        exact hcg (string_append_cancel (a := c) (b := "geometry") "_2" he)
      · exact append_ne_of_getLast "_2" "histreg" (by decide) (by decide)
      · exact append_ne_of_getLast "_2" "bbox" (by decide) (by decide)
      · exact append_ne_of_getLast "_2" "Intersection" (by decide) (by decide)
    · intro hc1
      apply mem_dfinterCols_of
      · rw [hpc]
        apply mem_mergeSuffix_right_notin hc2
        simp only [List.mem_append, List.mem_cons, List.not_mem_nil, or_false]
        push_neg
        refine ⟨⟨?_, ?_⟩, hc1, ?_, ?_⟩
        · exact fun he => hb2 "idx1" (by decide) (he ▸ hc2)
        · exact fun he => hb2 "idx2" (by decide) (he ▸ hc2)
        · exact fun he => hb2 "bbox" (by decide) (he ▸ hc2)
        · exact fun he => hb2 "histreg" (by decide) (he ▸ hc2)
      · exact fun he => hb2 "geometry_1" (by decide) (he ▸ hc2)
      · exact fun he => hb2 "geometry_2" (by decide) (he ▸ hc2)
      · exact fun he => hb2 "histreg" (by decide) (he ▸ hc2)
      · exact fun he => hb2 "bbox" (by decide) (he ▸ hc2)
      · exact fun he => hb2 "Intersection" (by decide) (he ▸ hc2)

/-- Claim C1: in difference mode, every record's result geometry is the
left-to-right fold of pairwise differences (with a buffer-by-zero repair after
each subtraction) over the bounding-box candidates, started from the record's
own repaired geometry; a record with an empty candidate set keeps its
(repaired) geometry unchanged. -/
theorem spatial_overlays_difference_is_spec_fold (ops : GeomOps G) (df1 df2 : GDF G) :
    (spatial_overlays ops df1 df2 "difference" =
      some { cols := df1.cols
             rows := filterNonEmptyRows ops ((repairGDF ops df1).rows.map (fun r =>
               { r with
                 geom := diffSpecGeom ops r.geom
                           (candGeoms ops (repairGDF ops df2) (ops.bounds r.geom)) }))
             crs := df1.crs })
    ∧ ∀ r : GRow G,
        candGeoms ops (repairGDF ops df2) (ops.bounds r.geom) = [] →
        (diffRow ops (repairGDF ops df2) r).geom = r.geom := by
  constructor
  · rfl
  · intro r h
    simp [diffRow, h, diffSpecGeom]

/-- Witness for C1: a record of A (geometry `{(0,0)}`) whose candidate set
against a far-away B (geometry `{(10,10)}`) is empty keeps its geometry. -/
theorem spatial_overlays_difference_is_spec_fold_witness :
    (diffRow listOps (repairGDF listOps ⟨["geometry"], [⟨[], [(10, 10)]⟩], "epsg:4326"⟩)
        ⟨[], [(0, 0)]⟩).geom = ([(0, 0)] : List (Int × Int)) :=
  (spatial_overlays_difference_is_spec_fold listOps ⟨["geometry"], [], "epsg:4326"⟩
      ⟨["geometry"], [⟨[], [(10, 10)]⟩], "epsg:4326"⟩).2 ⟨[], [(0, 0)]⟩ (by decide)

/-- Claim C2: calling `spatial_overlays` with a `how` value that is neither
`intersection` nor `difference` falls through both branches and yields no
result (Python returns `None`; modelled as `none`) instead of raising. -/
theorem spatial_overlays_unknown_mode_none (ops : GeomOps G) (df1 df2 : GDF G)
    (how : String) (h1 : how ≠ "intersection") (h2 : how ≠ "difference") :
    spatial_overlays ops df1 df2 how = none := by
  simp [spatial_overlays, h1, h2]

/-- Witness for C2: the unrecognized mode `union` produces no result. -/
theorem spatial_overlays_unknown_mode_none_witness :
    spatial_overlays listOps ⟨["geometry"], [], "x"⟩ ⟨["geometry"], [], "x"⟩ "union" = none :=
  spatial_overlays_unknown_mode_none listOps _ _ "union" (by decide) (by decide)

/-- Claim C3: in every mode that produces a result, no record of the output
of `spatial_overlays` has an empty geometry. -/
theorem spatial_overlays_output_no_empty_geometry (ops : GeomOps G) (df1 df2 : GDF G)
    (how : String) (out : GDF G) (h : spatial_overlays ops df1 df2 how = some out) :
    ∀ r ∈ out.rows, ops.isEmpty r.geom = false := by
  intro r hr
  simp only [spatial_overlays] at h
  split at h
  · cases h
    simp only [interResult, filterNonEmptyRows, List.mem_filter] at hr
    simpa using hr.2
  · split at h
    · cases h
      simp only [filterNonEmptyRows, List.mem_filter] at hr
      simpa using hr.2
    · cases h

/-- Witness for C3: a concrete intersection run whose (non-empty) output has
a record, and that record's geometry is not empty. -/
theorem spatial_overlays_output_no_empty_geometry_witness :
    listOps.isEmpty (((spatial_overlays listOps ⟨["geometry"], [⟨[], [(0, 0)]⟩], "x"⟩
        ⟨["geometry"], [⟨[], [(0, 0), (1, 1)]⟩], "x"⟩ "intersection").getD
          ⟨[], [], ""⟩).rows.getD 0 ⟨[], []⟩).geom = false :=
  spatial_overlays_output_no_empty_geometry listOps ⟨["geometry"], [⟨[], [(0, 0)]⟩], "x"⟩
    ⟨["geometry"], [⟨[], [(0, 0), (1, 1)]⟩], "x"⟩ "intersection" _ rfl _ (by decide)

/-- Claim C4: in intersection mode the output schema carries the attributes
of both inputs, shared names suffixed `_1` (A-origin) / `_2` (B-origin), and
the join frame always holds `geometry_1` and `geometry_2` (the two geometry
columns are disambiguated even without any other collision).  Stated for
inputs whose column names avoid the branch's own bookkeeping names. -/
theorem spatial_overlays_intersection_schema (ops : GeomOps G) (df1 df2 : GDF G)
    (out : GDF G) (h : spatial_overlays ops df1 df2 "intersection" = some out)
    (hg1 : "geometry" ∈ df1.cols) (hg2 : "geometry" ∈ df2.cols)
    (hf : ∀ x ∈ bookkeepingNames, x ∉ df1.cols ∧ x ∉ df2.cols) :
    ("geometry_1" ∈ pairsCols df1.cols df2.cols
      ∧ "geometry_2" ∈ pairsCols df1.cols df2.cols)
    ∧ (∀ c ∈ df1.cols, c ≠ "geometry" →
        (c ∈ df2.cols → (c ++ "_1") ∈ out.cols) ∧ (c ∉ df2.cols → c ∈ out.cols))
    ∧ (∀ c ∈ df2.cols, c ≠ "geometry" →
        (c ∈ df1.cols → (c ++ "_2") ∈ out.cols) ∧ (c ∉ df1.cols → c ∈ out.cols)) := by
  have hrfl : spatial_overlays ops df1 df2 "intersection"
      = some (interResult ops (repairGDF ops df1) (repairGDF ops df2)) := rfl
  rw [hrfl] at h
  cases h
  exact dfinterCols_membership df1.cols df2.cols hg1 hg2 hf

/-- Witness for C4: two concrete one-column inputs sharing the attribute
`name`; the A-origin copy appears as `name_1` in the output schema. -/
theorem spatial_overlays_intersection_schema_witness :
    ("name" ++ "_1") ∈ ((spatial_overlays listOps ⟨["name", "geometry"], [], "x"⟩
        ⟨["name", "geometry"], [], "x"⟩ "intersection").getD ⟨[], [], ""⟩).cols :=
  ((spatial_overlays_intersection_schema listOps ⟨["name", "geometry"], [], "x"⟩
      ⟨["name", "geometry"], [], "x"⟩ _ rfl (by decide) (by decide)
      (by decide)).2.1 "name" (by decide) (by decide)).1 (by decide)

/-!  getD bookkeeping lemmas for the store model. -/

lemma getD_append_lt {α : Type} (l l' : List α) (j : Nat) (d : α) (hj : j < l.length) :
    List.getD (l ++ l') j d = List.getD l j d :=
  List.getD_append _ _ _ _ hj

lemma getD_append_length {α : Type} (l : List α) (a : α) (d : α) :
    List.getD (l ++ [a]) l.length d = a := by
  simp [List.getD, List.getElem?_append_right]

lemma getD_append_length' {α : Type} (l : List α) (a : α) (d : α) (n : Nat)
    (h : n = l.length) : List.getD (l ++ [a]) n d = a := by
  rw [h]; exact getD_append_length l a d

lemma getD_set_ne {α : Type} (l : List α) (n i : Nat) (a : α) (d : α) (h : n ≠ i) :
    List.getD (l.set n a) i d = List.getD l i d := by
  simp [List.getD, List.getElem?_set_ne h]

lemma getD_set_self {α : Type} (l : List α) (n : Nat) (a : α) (d : α) (h : n < l.length) :
    List.getD (l.set n a) n d = a := by
  simp [List.getD, List.getElem?_set_self, h]

/-- Normal form of the store produced by the copy-and-repair prologue. -/
lemma overlayCopies_store (ops : GeomOps G) (s : Store G) (i1 i2 : Nat)
    (hi2 : i2 < s.length) :
    (overlayCopies ops s i1 i2).1
      = List.set (List.set ((s ++ [List.getD s i1 emptyGDF]) ++ [List.getD s i2 emptyGDF])
          s.length (repairGDF ops (List.getD s i1 emptyGDF)))
          (s.length + 1) (repairGDF ops (List.getD s i2 emptyGDF)) := by
  unfold overlayCopies
  simp only [List.length_append, List.length_cons, List.length_nil, Nat.add_zero, Nat.zero_add]
  rw [getD_append_lt _ _ _ _ hi2]
  rw [getD_append_lt _ _ s.length _ (by simp), getD_append_length]
  rw [getD_set_ne _ _ _ _ _ (by omega)]
  rw [getD_append_length' _ _ _ _ (by simp)]

/-- Claim C5: the store program never rewrites a pre-existing frame (the
caller's inputs included) in any mode, and the copy-and-repair prologue
leaves, at the two fresh addresses, exact copies of the two inputs with the
zero-distance-buffer repair applied to every geometry — for every `how`. -/
theorem spatial_overlays_st_frame_safety (ops : GeomOps G) (s : Store G) (i1 i2 : Nat)
    (how : String) (j : Nat) (hj : j < s.length) (hi2 : i2 < s.length) :
    List.getD (spatial_overlays_st ops s i1 i2 how).1 j emptyGDF = List.getD s j emptyGDF
    ∧ List.getD (overlayCopies ops s i1 i2).1 s.length emptyGDF
        = repairGDF ops (List.getD s i1 emptyGDF)
    ∧ List.getD (overlayCopies ops s i1 i2).1 (s.length + 1) emptyGDF
        = repairGDF ops (List.getD s i2 emptyGDF) := by
  have hstore := overlayCopies_store ops s i1 i2 hi2
  have hlen : (overlayCopies ops s i1 i2).1.length = s.length + 2 := by
    rw [hstore]; simp
  have hsmall : ∀ k, k < s.length →
      List.getD (overlayCopies ops s i1 i2).1 k emptyGDF = List.getD s k emptyGDF := by
    intro k hk
    rw [hstore, getD_set_ne _ _ _ _ _ (by omega), getD_set_ne _ _ _ _ _ (by omega),
      getD_append_lt _ _ _ _ (by simp; omega), getD_append_lt _ _ _ _ hk]
  have ha1 : (overlayCopies ops s i1 i2).2.1 = s.length := rfl
  refine ⟨?_, ?_, ?_⟩
  · unfold spatial_overlays_st
    simp only []
    split
    · exact hsmall j hj
    · split
      · rw [getD_append_lt _ _ _ _ (by rw [List.length_set, hlen]; omega),
          getD_set_ne _ _ _ _ _ (by rw [ha1]; omega)]
        exact hsmall j hj
      · exact hsmall j hj
  · rw [hstore, getD_set_ne _ _ _ _ _ (by omega)]
    exact getD_set_self _ _ _ _ (by simp)
  · rw [hstore]
    apply getD_set_self
    simp

/-- Witness for C5: a two-frame store; running difference mode leaves frame 0
unchanged, and the first fresh copy holds frame 0's geometries repaired. -/
theorem spatial_overlays_st_frame_safety_witness :
    List.getD (spatial_overlays_st listOps
        [⟨["geometry"], [⟨[], [(0, 0), (0, 0)]⟩], "x"⟩, ⟨["geometry"], [⟨[], [(0, 0)]⟩], "x"⟩]
        0 1 "difference").1 0 emptyGDF
      = ⟨["geometry"], [⟨[], [(0, 0), (0, 0)]⟩], "x"⟩
    ∧ List.getD (overlayCopies listOps
        [⟨["geometry"], [⟨[], [(0, 0), (0, 0)]⟩], "x"⟩, ⟨["geometry"], [⟨[], [(0, 0)]⟩], "x"⟩]
        0 1).1 2 emptyGDF
      = ⟨["geometry"], [⟨[], [(0, 0)]⟩], "x"⟩ := by
  have h := spatial_overlays_st_frame_safety listOps
    [⟨["geometry"], [⟨[], [(0, 0), (0, 0)]⟩], "x"⟩, ⟨["geometry"], [⟨[], [(0, 0)]⟩], "x"⟩]
    0 1 "difference" 0 (by decide) (by decide)
  exact ⟨h.1, h.2.1.trans (by decide)⟩

/-- Counterexample to claim C6 as stated: for `delete_roads_urb` a true flag
(`inter_urb = true`) does NOT return the row's original geometry — the code
transforms exactly when the flag is true. -/
theorem delete_roads_urb_true_flag_not_original :
    ¬ (delete_roads_urb listOps ⟨[(0, 0), (1, 1)], true, true⟩ [(0, 0)] =
        (CRow.geometry ⟨[(0, 0), (1, 1)], true, true⟩ : List (Int × Int))) := by
  decide

/-- Claim C6 (amended): `geom_within_country` returns the original geometry
when `within_country` is true and the intersection with the reference when it
is false; `delete_roads_urb` returns the difference from the reference when
`inter_urb` is TRUE and the original geometry when it is false (its flag
convention is the opposite of the clip-to-boundary transform). -/
theorem conditional_transform_flag_semantics (ops : GeomOps G) (x : CRow G) (geoC geoU : G) :
    (x.within_country = true → geom_within_country ops x geoC = x.geometry)
    ∧ (x.within_country = false →
        geom_within_country ops x geoC = ops.inter x.geometry geoC)
    ∧ (x.inter_urb = true → delete_roads_urb ops x geoU = ops.diff x.geometry geoU)
    ∧ (x.inter_urb = false → delete_roads_urb ops x geoU = x.geometry) := by
  refine ⟨?_, ?_, ?_, ?_⟩ <;> intro h <;>
    simp [geom_within_country, delete_roads_urb, h]

/-- Witness for C6 (amended): a concrete row with `inter_urb = false` keeps
its geometry. -/
theorem conditional_transform_flag_semantics_witness :
    delete_roads_urb listOps ⟨[(2, 3)], true, false⟩ [(9, 9)] = ([(2, 3)] : List (Int × Int)) :=
  (conditional_transform_flag_semantics listOps ⟨[(2, 3)], true, false⟩ [(0, 0)] [(9, 9)]).2.2.2
    rfl

/-!  Lemmas for the road classification table (claim C7). -/

lemma lookup_val_mem {l : List (String × String)} {x v : String}
    (h : l.lookup x = some v) : v ∈ l.map Prod.snd := by
  induction l with
  | nil => simp [List.lookup] at h
  | cons p t ih =>
    obtain ⟨k, w⟩ := p
    rw [List.lookup] at h
    split at h
    · cases h
      simp
    · simp only [List.map_cons, List.mem_cons]
      exact Or.inr (ih h)

lemma dict_map_val_mem {t v : String} (h : dict_map t = some v) : v ∈ roadClasses := by
  unfold dict_map at h
  have hm := lookup_val_mem h
  have hsub : ∀ w ∈ dict_map_table.map Prod.snd, w ∈ roadClasses := by decide
  exact hsub v hm

lemma map_roads_error_of_bad : ∀ tags : List String,
    (∃ t ∈ tags, dict_map t = none) →
    ∃ e ∈ tags, map_roads tags = Except.error e ∧ dict_map e = none := by
  intro tags
  induction tags with
  | nil =>
    rintro ⟨t, ht, -⟩
    simp at ht
  | cons x xs ih =>
    rintro ⟨t, ht, hnone⟩
    by_cases hx : dict_map x = none
    · exact ⟨x, List.mem_cons_self x xs, by simp [map_roads, hx], hx⟩
    · obtain ⟨v, hv⟩ := Option.ne_none_iff_exists'.mp hx
      have hts : t ∈ xs := by
        rcases List.mem_cons.mp ht with rfl | hmem
        · exact absurd hnone hx
        · exact hmem
      obtain ⟨e, he, herr, hen⟩ := ih ⟨t, hts, hnone⟩
      refine ⟨e, List.mem_cons_of_mem _ he, ?_, hen⟩
      simp [map_roads, hv, herr, Except.map]

lemma map_roads_ok_of_good : ∀ tags : List String,
    (∀ t ∈ tags, (dict_map t).isSome) →
    ∃ vs, map_roads tags = Except.ok vs ∧ ∀ v ∈ vs, v ∈ roadClasses := by
  intro tags
  induction tags with
  | nil => exact fun _ => ⟨[], rfl, by simp⟩
  | cons x xs ih =>
    intro hgood
    obtain ⟨v, hv⟩ := Option.isSome_iff_exists.mp (hgood x (List.mem_cons_self x xs))
    obtain ⟨vs, hok, hall⟩ := ih (fun t ht => hgood t (List.mem_cons_of_mem _ ht))
    refine ⟨v :: vs, ?_, ?_⟩
    · simp [map_roads, hv, hok, Except.map]
    · intro w hw
      rcases List.mem_cons.mp hw with rfl | hmem
      · exact dict_map_val_mem hv
      · exact hall w hmem

/-- Claim C7: the static table maps every present tag to exactly one of the
five coarse classes, and a tag absent from the table makes `map_roads` raise
(an error naming a missing tag, propagated — never a silent default). -/
theorem map_roads_closed_world :
    (∀ t v, dict_map t = some v → v ∈ roadClasses)
    ∧ (∀ tags : List String, (∃ t ∈ tags, dict_map t = none) →
        ∃ e ∈ tags, map_roads tags = Except.error e ∧ dict_map e = none)
    ∧ (∀ tags : List String, (∀ t ∈ tags, (dict_map t).isSome) →
        ∃ vs, map_roads tags = Except.ok vs ∧ ∀ v ∈ vs, v ∈ roadClasses) :=
  ⟨fun _ _ h => dict_map_val_mem h, map_roads_error_of_bad, map_roads_ok_of_good⟩

/-- Witness for C7: `residential` maps into the five classes; the unmapped
tag `flying_road` raises the lookup error. -/
theorem map_roads_closed_world_witness :
    ("tertiary" ∈ roadClasses)
    ∧ map_roads ["flying_road"] = Except.error "flying_road" := by
  refine ⟨map_roads_closed_world.1 "residential" "tertiary" rfl, ?_⟩
  obtain ⟨e, he, herr, -⟩ := map_roads_closed_world.2.1 ["flying_road"]
    ⟨"flying_road", by simp, rfl⟩
  simp only [List.mem_cons, List.not_mem_nil, or_false] at he
  rw [he] at herr
  exact herr

/-- Claim C8: with `RAI = false`, `get_country` retains a tag-filtered record
exactly when its computed length is strictly below 500 (km): length exactly
500 is dropped. -/
theorem get_country_length_filter_strict (len : G → ℚ) (rows : List (HRow G))
    (r : HRow G) (oq : Option ℚ) :
    (r, oq) ∈ get_country_core len rows false ↔
      (r ∈ tag_filter rows ∧ oq = some (len r.geom) ∧ len r.geom < 500) := by
  unfold get_country_core
  simp only [beq_self_eq_true, if_true, List.mem_map, List.mem_filter,
    decide_eq_true_eq, Prod.mk.injEq]
  constructor
  · rintro ⟨rd, ⟨⟨a, ha, rfl⟩, hlt⟩, rfl, rfl⟩
    exact ⟨ha, rfl, hlt⟩
  · rintro ⟨hmem, rfl, hlt⟩
    exact ⟨(r, len r.geom), ⟨⟨r, hmem, rfl⟩, hlt⟩, rfl, rfl⟩

/-- Witness for C8: with the always-retained tag `primary`, a record of
length 499 km is kept and a record of length exactly 500 km is dropped. -/
theorem get_country_length_filter_strict_witness :
    ((⟨"primary", [(0, 0)]⟩ : HRow (List (Int × Int))), some (499 : ℚ)) ∈
        get_country_core (fun _ => 499) [⟨"primary", [(0, 0)]⟩] false
    ∧ ¬ (((⟨"primary", [(1, 1)]⟩ : HRow (List (Int × Int))), some (500 : ℚ)) ∈
        get_country_core (fun _ => 500) [⟨"primary", [(1, 1)]⟩] false) := by
  constructor
  · exact (get_country_length_filter_strict (fun _ => 499) [⟨"primary", [(0, 0)]⟩]
      ⟨"primary", [(0, 0)]⟩ (some 499)).mpr ⟨by decide, rfl, by norm_num⟩
  · intro h
    have := ((get_country_length_filter_strict (fun _ => 500) [⟨"primary", [(1, 1)]⟩]
      ⟨"primary", [(1, 1)]⟩ (some 500)).mp h).2.2
    norm_num at this

/-!  Lemmas for the explode round-trip (claim C9). -/

lemma flatten_singletons {α β : Type} (l : List α) (f : α → β) :
    (l.map (fun a => [f a])).flatten = l.map f := by
  induction l with
  | nil => rfl
  | cons a t ih => simp [ih]

/-- Claim C9: on a collection of single-part geometries, `explode` is the
identity up to indexing: same record count, same geometries in order, part
index (`level_1`) zero everywhere, parent attributes duplicated verbatim, CRS
unchanged. -/
theorem explode_single_part_identity (gdf : XFrame P)
    (h : ∀ r ∈ gdf.rows, isSinglePart r.2 = true) :
    explode gdf = (gdf.rows.enum.map (fun ir => ((ir.1, 0), ir.2.1, ir.2.2)), gdf.crs) := by
  unfold explode
  congr 1
  have hmap : gdf.rows.enum.map (fun ir =>
      (explodeParts ir.2.2).enum.map (fun jp => ((ir.1, jp.1), ir.2.1, jp.2)))
      = gdf.rows.enum.map (fun ir => [((ir.1, 0), ir.2.1, ir.2.2)]) := by
    apply List.map_eq_map_iff.mpr
    intro ir hir
    have hs := h ir.2 (List.snd_mem_of_mem_enum hir)
    cases hg : ir.2.2 with
    | single p => simp [explodeParts, List.enum]
    | multi ps =>
      rw [hg] at hs
      simp [isSinglePart] at hs
  rw [hmap, flatten_singletons]

/-- Witness for C9: a one-record single-part frame explodes to itself with
part index 0. -/
theorem explode_single_part_identity_witness :
    explode (⟨[(["a"], Geo.single 7)], "epsg:4326"⟩ : XFrame Nat)
      = ([((0, 0), ["a"], Geo.single 7)], "epsg:4326") :=
  explode_single_part_identity ⟨[(["a"], Geo.single 7)], "epsg:4326"⟩ (by decide)

/-!  Lemmas for the tag-frequency filter (claim C10). -/

lemma mem_uniqTags (rows : List (HRow G)) (t : String) :
    t ∈ uniqTags rows ↔
      ((rows.map (fun r => r.highway)).count t > 20 ∨ t ∈ fourAlways) := by
  unfold uniqTags
  simp only [List.mem_dedup, List.mem_append, List.mem_filter, decide_eq_true_eq]
  constructor
  · rintro (⟨-, hc⟩ | hf)
    · exact Or.inl hc
    · exact Or.inr hf
  · rintro (hc | hf)
    · refine Or.inl ⟨List.count_pos_iff.mp ?_, hc⟩
      omega
    · exact Or.inr hf

/-- Claim C10: `get_country`'s pre-classification frequency filter retains a
loaded record iff its `highway` tag occurs more than 20 times in the loaded
data or is one of `primary`, `secondary`, `trunk`, `motorway`; and every
record surviving `get_country_core` (either `RAI` mode) passed this filter. -/
theorem tag_filter_retention_iff (rows : List (HRow G)) (r : HRow G) :
    (r ∈ tag_filter rows ↔
      (r ∈ rows ∧ ((rows.map (fun r => r.highway)).count r.highway > 20
        ∨ r.highway ∈ fourAlways)))
    ∧ ∀ (len : G → ℚ) (RAI : Bool) (oq : Option ℚ),
        (r, oq) ∈ get_country_core len rows RAI → r ∈ tag_filter rows := by
  constructor
  · unfold tag_filter
    rw [List.mem_filter]
    constructor
    · rintro ⟨hmem, hc⟩
      exact ⟨hmem, (mem_uniqTags rows r.highway).mp (List.elem_iff.mp hc)⟩
    · rintro ⟨hmem, hor⟩
      exact ⟨hmem, List.elem_iff.mpr ((mem_uniqTags rows r.highway).mpr hor)⟩
  · intro len RAI oq h
    unfold get_country_core at h
    split at h
    · simp only [List.mem_map, List.mem_filter, Prod.mk.injEq] at h
      obtain ⟨rd, ⟨⟨a, ha, rfl⟩, -⟩, rfl, -⟩ := h
      exact ha
    · simp only [List.mem_map, Prod.mk.injEq] at h
      obtain ⟨a, ha, rfl, -⟩ := h
      exact ha

/-- Witness for C10: a tag occurring once is retained because it is one of
the four always-retained classes. -/
theorem tag_filter_retention_iff_witness :
    (⟨"trunk", [(0, 0)]⟩ : HRow (List (Int × Int))) ∈
      tag_filter [⟨"trunk", [(0, 0)]⟩] :=
  (tag_filter_retention_iff [⟨"trunk", [(0, 0)]⟩] ⟨"trunk", [(0, 0)]⟩).1.mpr
    ⟨by decide, Or.inr (by decide)⟩

end RAI
